import Mathlib

/-!
Verification of the hierarchical registry core (`js/core/src/registry.ts`).

The registry is a chain of nodes, each owning string-keyed tables for
actions, trace-store providers, flow-state-store providers, plugin
bindings and schemas, plus per-node memoization caches for asynchronous
constructions.  We embed it shallowly:

* JavaScript objects used as string-keyed dictionaries become association
  lists in insertion order (`lookupTable` / `insertTable`); assignment to
  an existing key replaces the entry in place, matching JS property
  update semantics.
* The mutable `Registry` class becomes a value: every operation that
  mutates state returns an updated value alongside its result.
* Asynchronous provider factories and plugin initializers are opaque in
  the source.  A provider is identified by a numeric id; invoking it
  yields the store value `⟨id⟩` and appends a ghost log event recording
  the invocation, so "the provider ran n times" is the number of such
  events.  Plugin initializer effects are resolved through an explicit
  environment `EffEnv` mapping an initializer id to a transformation of
  the node's tables (the source expects an initializer to perform
  registrations against the currently scoped registry); the ghost log is
  outside `Tables`, so an initializer effect cannot forge invocation
  events.
* The JavaScript event loop is single threaded: an `async` function runs
  synchronously until its first `await`.  In `lookupOverlaidTraceStore`,
  `lookupOverlaidFlowStateStore` and the memoizing wrapper installed by
  `registerPluginProvider`, the check of the cache slot and the write of
  the in-flight promise happen with no intervening `await`, so each of
  these bodies is a single atomic step with respect to interleaving.
  Concurrent callers are therefore modelled as an arbitrary sequence of
  these atomic steps.
* Store objects and promises are JS objects compared for truthiness in
  the source (`||`, `!cached`); objects are always truthy, which the
  embedding reflects by modelling presence as `Option.isSome`.
  `pluginName` in `lookupAction` is a *string* tested for truthiness, so
  the empty string counts as absent there (`strTruthy`).
-/

namespace Genkit


/-- Ghost log of observable side effects: logger output and invocations
of opaque provider factories / plugin initializers. -/
inductive Event where
  | info (msg : String)
  | warn (msg : String)
  | traceInvoke (env : String) (pid : Nat)
  | flowInvoke (env : String) (pid : Nat)
  | pluginInvoke (name : String) (initId : Nat)
deriving DecidableEq, Repr

/-- An action: an opaque callable with metadata.  Only the `name` field is
inspected by the registry (for key derivation); `payload` stands for the
callable identity and distinguishes different actions. -/
structure Action where
  name : String
  payload : Nat
deriving DecidableEq, Repr

/-- A trace store instance, opaque to the registry; produced by the
provider with the recorded id. -/
structure TraceStore where
  pid : Nat
deriving DecidableEq, Repr

/-- A flow state store instance, opaque to the registry. -/
structure FlowStateStore where
  pid : Nat
deriving DecidableEq, Repr

/-- A schema entry: a structured schema and/or a raw JSON schema, both
optional and opaque. -/
structure SchemaEntry where
  schema : Option Nat
  jsonSchema : Option Nat
deriving DecidableEq, Repr

/-- A plugin provider as passed to `registerPluginProvider`: a name and a
zero-argument asynchronous initializer, identified here by `initId` and
resolved through an `EffEnv`. -/
structure PluginProvider where
  name : String
  initId : Nat
deriving DecidableEq, Repr

/-- The stored plugin binding: the memoizing wrapper that
`registerPluginProvider` installs.  `cached` is the wrapper's captured
`cached` variable: `none` until the first initializer invocation, then the
memoized (opaque) result. -/
structure PluginBinding where
  name : String
  initId : Nat
  cached : Option Nat
deriving DecidableEq, Repr

/-- The closed set of action types (`ActionType` in the source). -/
inductive ActionType where
  | custom | retriever | indexer | embedder | evaluator
  | flow | model | prompt | tool
deriving DecidableEq, Repr

def ActionType.str : ActionType → String
  | .custom => "custom"
  | .retriever => "retriever"
  | .indexer => "indexer"
  | .embedder => "embedder"
  | .evaluator => "evaluator"
  | .flow => "flow"
  | .model => "model"
  | .prompt => "prompt"
  | .tool => "tool"

/-- Lookup in a JS-object-as-dictionary: the value bound to `k`, if any. -/
def lookupTable {α : Type} (t : List (String × α)) (k : String) : Option α :=
  match t.find? (fun e => e.1 == k) with
  | some e => some e.2
  | none => none

/-- Assignment `t[k] = v` on a JS object: replaces an existing binding in
place, otherwise appends (JS string keys keep insertion order). -/
def insertTable {α : Type} : List (String × α) → String → α → List (String × α)
  | [], k, v => [(k, v)]
  | (k', v') :: t, k, v =>
    if k' == k then (k, v) :: t else (k', v') :: insertTable t k v

/-- The five binding tables and the two construction caches owned by one
registry node (`Registry`'s private fields). -/
structure Tables where
  actionsById : List (String × Action)
  traceStoresByEnv : List (String × Nat)
  flowStateStoresByEnv : List (String × Nat)
  pluginsByName : List (String × PluginBinding)
  schemasByName : List (String × SchemaEntry)
  traceStoresByEnvCache : List (String × TraceStore)
  flowStateStoresByEnvCache : List (String × FlowStateStore)
deriving DecidableEq, Repr

def Tables.empty : Tables :=
  ⟨[], [], [], [], [], [], []⟩

/-- One node's full state: its tables plus the ghost event log. -/
structure RegState where
  tables : Tables
  log : List Event
deriving DecidableEq, Repr

def RegState.empty : RegState := ⟨Tables.empty, []⟩

/-- Resolution environment for opaque plugin initializers: maps an
initializer id to its effect on the node's tables and its opaque result.
It acts on `Tables` only: the ghost log is not visible to it. -/
def EffEnv : Type := Nat → Tables → Tables × Nat

/-- JavaScript `s.split("/")` for the single-character separator, on the
string's character list: the empty string splits to one empty segment,
and adjacent separators yield empty segments. -/
def jsSplit (sep : Char) : List Char → List (List Char)
  | [] => [[]]
  | c :: cs =>
    match jsSplit sep cs with
    | [] => [[]]
    | h :: t => if c == sep then [] :: h :: t else (c :: h) :: t

/-- The token list `registryKey.split("/")` used by `parsePluginName`. -/
def splitKey (key : String) : List String :=
  (jsSplit '/' key.toList).map fun cs => String.mk cs

/-- `parsePluginName` from the source: split the registry key on `/`; if
exactly four tokens result, the plugin name is the token at index 2. -/
def parsePluginName (registryKey : String) : Option String :=
  let tokens := splitKey registryKey
  if tokens.length = 4 then tokens[2]? else none

/-- JS truthiness of an optional string (`undefined` and `""` are falsy). -/
def strTruthy : Option String → Bool
  | none => false
  | some s => !s.isEmpty

/-- `registerAction`: logs an info line, derives the key
`/<type>/<name>`, warns on overwrite and stores the action locally. -/
def registerActionState (st : RegState) (type : ActionType) (a : Action) : RegState :=
  let key := "/" ++ type.str ++ "/" ++ a.name
  let log1 := st.log ++ [Event.info ("Registering " ++ type.str ++ ": " ++ a.name)]
  let log2 :=
    if (lookupTable st.tables.actionsById key).isSome then
      log1 ++ [Event.warn ("WARNING: " ++ key ++
        " already has an entry in the registry. Overwriting.")]
    else log1
  { tables := { st.tables with
      actionsById := insertTable st.tables.actionsById key a },
    log := log2 }

/-- The key under which `registerAction` stores an action. -/
def actionKey (type : ActionType) (a : Action) : String :=
  "/" ++ type.str ++ "/" ++ a.name

/-- `registerTraceStore`: stores the provider function under `env`
without invoking it. -/
def registerTraceStoreState (st : RegState) (env : String) (pid : Nat) : RegState :=
  { st with tables := { st.tables with
      traceStoresByEnv := insertTable st.tables.traceStoresByEnv env pid } }

/-- `registerFlowStateStore`: stores the provider function under `env`
without invoking it. -/
def registerFlowStateStoreState (st : RegState) (env : String) (pid : Nat) : RegState :=
  { st with tables := { st.tables with
      flowStateStoresByEnv := insertTable st.tables.flowStateStoresByEnv env pid } }

/-- `registerPluginProvider`: wraps the provider's initializer in a
memoizing closure (fresh, with `cached` unset) and stores it under
`name`; the initializer is not invoked. -/
def registerPluginProviderState (st : RegState) (name : String) (p : PluginProvider) : RegState :=
  { st with tables := { st.tables with
      pluginsByName := insertTable st.tables.pluginsByName name
        ⟨p.name, p.initId, none⟩ } }

/-- `registerSchema`: stores the schema entry under `name`. -/
def registerSchemaState (st : RegState) (name : String) (d : SchemaEntry) : RegState :=
  { st with tables := { st.tables with
      schemasByName := insertTable st.tables.schemasByName name d } }

/-- `lookupOverlaidTraceStore` (private helper of `lookupTraceStore`):
absent a local binding, answer `undefined`; otherwise answer the cached
promise, constructing (and caching before any suspension point) on first
access.  The whole body runs with no intervening `await`, so it is one
atomic step of the event loop. -/
def lookupOverlaidTraceStore (st : RegState) (env : String) :
    RegState × Option TraceStore :=
  match lookupTable st.tables.traceStoresByEnv env with
  | none => (st, none)
  | some pid =>
    match lookupTable st.tables.traceStoresByEnvCache env with
    | some cached => (st, some cached)
    | none =>
      let newStore : TraceStore := ⟨pid⟩
      ({ tables := { st.tables with
           traceStoresByEnvCache :=
             insertTable st.tables.traceStoresByEnvCache env newStore },
         log := st.log ++ [Event.traceInvoke env pid] },
       some newStore)

/-- `lookupOverlaidFlowStateStore`: same one-atomic-step memoized
construction for flow state stores. -/
def lookupOverlaidFlowStateStore (st : RegState) (env : String) :
    RegState × Option FlowStateStore :=
  match lookupTable st.tables.flowStateStoresByEnv env with
  | none => (st, none)
  | some pid =>
    match lookupTable st.tables.flowStateStoresByEnvCache env with
    | some cached => (st, some cached)
    | none =>
      let newStore : FlowStateStore := ⟨pid⟩
      ({ tables := { st.tables with
           flowStateStoresByEnvCache :=
             insertTable st.tables.flowStateStoresByEnvCache env newStore },
         log := st.log ++ [Event.flowInvoke env pid] },
       some newStore)

/-- `initializePlugin` restricted to one node (the method never delegates
to the parent): if a local binding exists, run its memoizing wrapper —
return the cached result if set, otherwise invoke the initializer effect
and record its result in `cached`.  The check of `cached` and the
assignment to it have no intervening `await` in the wrapper, so this is
again one atomic step. -/
def initializePluginState (E : EffEnv) (st : RegState) (name : String) :
    RegState × Option Nat :=
  match lookupTable st.tables.pluginsByName name with
  | none => (st, none)
  | some b =>
    match b.cached with
    | some v => (st, some v)
    | none =>
      let r := E b.initId st.tables
      ({ tables := { r.1 with
           pluginsByName := insertTable r.1.pluginsByName name
             ⟨b.name, b.initId, some r.2⟩ },
         log := st.log ++ [Event.pluginInvoke name b.initId] },
       some r.2)

/-- A registry node: its own state plus an optional parent, forming the
singly linked chain (`Registry` class, `constructor(public parent?)`);
`root` is a node constructed with `parent` undefined, `child` one
constructed with the given parent. -/
inductive Registry where
  | root (st : RegState)
  | child (st : RegState) (parent : Registry)
deriving DecidableEq, Repr

/-- `new Registry(parent?)` with the optional argument made explicit. -/
def Registry.node (st : RegState) : Option Registry → Registry
  | none => .root st
  | some p => .child st p

def Registry.st : Registry → RegState
  | .root st => st
  | .child st _ => st

def Registry.parentOf : Registry → Option Registry
  | .root _ => none
  | .child _ p => some p

/-- `Registry.withParent`: a fresh node over the given parent. -/
def Registry.withParent (parent : Registry) : Registry :=
  .child RegState.empty parent

/-- `Registry.withCurrent`: a fresh node whose parent is the registry
current at call time (resolved through the scope manager; here the
current registry is passed explicitly). -/
def Registry.withCurrent (current : Registry) : Registry :=
  Registry.withParent current

/-- `Registry.lookupAction`: if the key is absent locally and a truthy
plugin name parses from it, first await that plugin\'s local
initialization; then answer the (re-checked) local entry, else delegate
to the parent, else `undefined`. -/
def Registry.lookupAction (E : EffEnv) : Registry → String → Registry × Option Action
  | .root st, key =>
    let pluginName := parsePluginName key
    let st1 :=
      if (lookupTable st.tables.actionsById key).isNone && strTruthy pluginName then
        (initializePluginState E st (pluginName.getD "")).1
      else st
    match lookupTable st1.tables.actionsById key with
    | some a => (.root st1, some a)
    | none => (.root st1, none)
  | .child st parent, key =>
    let pluginName := parsePluginName key
    let st1 :=
      if (lookupTable st.tables.actionsById key).isNone && strTruthy pluginName then
        (initializePluginState E st (pluginName.getD "")).1
      else st
    match lookupTable st1.tables.actionsById key with
    | some a => (.child st1 parent, some a)
    | none =>
      let pr := parent.lookupAction E key
      (.child st1 pr.1, pr.2)

/-- `Registry.lookupPlugin`: synchronous local-then-parent chain lookup
in the plugin table. -/
def Registry.lookupPlugin : Registry → String → Option PluginBinding
  | .root st, name => lookupTable st.tables.pluginsByName name
  | .child st parent, name =>
    match lookupTable st.tables.pluginsByName name with
    | some b => some b
    | none => parent.lookupPlugin name

/-- `Registry.lookupSchema`: synchronous local-then-parent chain lookup
in the schema table. -/
def Registry.lookupSchema : Registry → String → Option SchemaEntry
  | .root st, name => lookupTable st.tables.schemasByName name
  | .child st parent, name =>
    match lookupTable st.tables.schemasByName name with
    | some d => some d
    | none => parent.lookupSchema name

/-- `Registry.lookupTraceStore`: the overlaid (local, memoized) store if
the local node has a binding, else the parent\'s result. -/
def Registry.lookupTraceStore : Registry → String → Registry × Option TraceStore
  | .root st, env =>
    let o := lookupOverlaidTraceStore st env
    (.root o.1, o.2)
  | .child st parent, env =>
    let o := lookupOverlaidTraceStore st env
    match o.2 with
    | some v => (.child o.1 parent, some v)
    | none =>
      let pr := parent.lookupTraceStore env
      (.child o.1 pr.1, pr.2)

/-- `Registry.lookupFlowStateStore`: the overlaid (local, memoized) store
if the local node has a binding, else the parent\'s result. -/
def Registry.lookupFlowStateStore : Registry → String → Registry × Option FlowStateStore
  | .root st, env =>
    let o := lookupOverlaidFlowStateStore st env
    (.root o.1, o.2)
  | .child st parent, env =>
    let o := lookupOverlaidFlowStateStore st env
    match o.2 with
    | some v => (.child o.1 parent, some v)
    | none =>
      let pr := parent.lookupFlowStateStore env
      (.child o.1 pr.1, pr.2)

/-- Initialize, in table order, every plugin whose name is registered on
the node at entry (`Object.keys` snapshots the names before the loop). -/
def initAllPlugins (E : EffEnv) (st : RegState) : RegState :=
  (st.tables.pluginsByName.map Prod.fst).foldl
    (fun s n => (initializePluginState E s n).1) st

/-- Object spread `\x7b...base, ...ext\x7d`: for lookup purposes the
extension\'s bindings shadow the base\'s. -/
def mergeRecord (base ext : List (String × Action)) : List (String × Action) :=
  ext ++ base

/-- `Registry.listActions`: first initialize every locally registered
plugin, then spread the parent\'s full listing under the local table. -/
def Registry.listActions (E : EffEnv) : Registry → Registry × List (String × Action)
  | .root st =>
    let st1 := initAllPlugins E st
    (.root st1, mergeRecord [] st1.tables.actionsById)
  | .child st parent =>
    let st1 := initAllPlugins E st
    let pr := parent.listActions E
    (.child st1 pr.1, mergeRecord pr.2 st1.tables.actionsById)

/-- Module-level `lookupPlugin` as written in the source: it delegates to
`getRegistryInstance().lookupFlowStateStore(name)` — the flow-state-store
lookup — not to `Registry.lookupPlugin`. -/
def lookupPluginModule (current : Registry) (name : String) :
    Registry × Option FlowStateStore :=
  current.lookupFlowStateStore name

/-- A registration operation performed through the module-level
convenience functions, which dispatch to the current registry. -/
inductive RegOp where
  | regAction (type : ActionType) (a : Action)
  | regTraceStore (env : String) (pid : Nat)
  | regFlowStateStore (env : String) (pid : Nat)
  | regPluginProvider (name : String) (p : PluginProvider)
  | regSchema (name : String) (d : SchemaEntry)
deriving DecidableEq, Repr

/-- Apply a registration to a node: registrations only ever touch the
local node\'s own state, never the parent. -/
def applyRegOpState (st : RegState) : RegOp → RegState
  | .regAction type a => registerActionState st type a
  | .regTraceStore env pid => registerTraceStoreState st env pid
  | .regFlowStateStore env pid => registerFlowStateStoreState st env pid
  | .regPluginProvider name p => registerPluginProviderState st name p
  | .regSchema name d => registerSchemaState st name d

def applyRegOp (r : Registry) (op : RegOp) : Registry :=
  match r with
  | .root st => .root (applyRegOpState st op)
  | .child st parent => .child (applyRegOpState st op) parent

/-- `runInTempRegistry(fn)`: create a fresh child of the current registry
(`Registry.withCurrent`) and run `fn` scoped to it, so the registrations
`fn` performs through the module-level functions land on the temporary
node.  The final state of the temporary node is returned so the frame
property over the original node can be stated. -/
def runInTempRegistry (current : Registry) (ops : List RegOp) : Registry :=
  ops.foldl applyRegOp (Registry.withCurrent current)

/-- A plain local-then-parent chain lookup in the action tables, with no
plugin-resolution step; what the spec calls falling through to "a plain
chain lookup". -/
def chainLookupAction : Registry → String → Option Action
  | .root st, key => lookupTable st.tables.actionsById key
  | .child st parent, key =>
    match lookupTable st.tables.actionsById key with
    | some a => some a
    | none => chainLookupAction parent key

/-- The key is absent from the action table of every node of the chain. -/
def keyAbsentInChain : Registry → String → Bool
  | .root st, key => (lookupTable st.tables.actionsById key).isNone
  | .child st parent, key =>
    (lookupTable st.tables.actionsById key).isNone && keyAbsentInChain parent key

/-- The behavior claim C1 states, reading "a plugin name is inferred" by
the spec's Plugin Resolution rule (`parsePluginName` succeeding): on a
local miss with any inferred name — the empty string included — the
plugin's local initialization is awaited before the re-check.  Written
for comparison with `Registry.lookupAction`, which additionally requires
the inferred name to be truthy. -/
def lookupActionClaimed (E : EffEnv) : Registry → String → Registry × Option Action
  | .root st, key =>
    let st1 :=
      if (lookupTable st.tables.actionsById key).isNone
          && (parsePluginName key).isSome then
        (initializePluginState E st ((parsePluginName key).getD "")).1
      else st
    match lookupTable st1.tables.actionsById key with
    | some a => (.root st1, some a)
    | none => (.root st1, none)
  | .child st parent, key =>
    let st1 :=
      if (lookupTable st.tables.actionsById key).isNone
          && (parsePluginName key).isSome then
        (initializePluginState E st ((parsePluginName key).getD "")).1
      else st
    match lookupTable st1.tables.actionsById key with
    | some a => (.child st1 parent, some a)
    | none =>
      let pr := lookupActionClaimed E parent key
      (.child st1 pr.1, pr.2)

/-- Effect environment for the C1 counterexample: every initializer
registers the action `/model//x`. -/
def c1CexEff : EffEnv := fun _ t =>
  ({ t with actionsById := insertTable t.actionsById "/model//x" ⟨"x", 9⟩ }, 0)

/-- Node state for the C1 counterexample: one plugin registered under the
empty name, no actions. -/
def c1CexSt : RegState :=
  ⟨{ Tables.empty with pluginsByName := [("", ⟨"", 0, none⟩)] }, []⟩

/-- Effect environment for the C1 witness: every initializer registers
the action `/model/myplugin/gpt`. -/
def c1WitEff : EffEnv := fun _ t =>
  ({ t with actionsById := insertTable t.actionsById "/model/myplugin/gpt" ⟨"myplugin/gpt", 7⟩ }, 0)

/-- Node state for the C1 witness: plugin `myplugin` registered, no
actions yet. -/
def c1WitSt : RegState :=
  ⟨{ Tables.empty with pluginsByName := [("myplugin", ⟨"myplugin", 0, none⟩)] }, []⟩

/-- Node state evaluated for claim C2: the plugin `p` is registered and
no flow-state-store binding exists. -/
def c2St : RegState :=
  ⟨{ Tables.empty with pluginsByName := [("p", ⟨"p", 5, none⟩)] }, []⟩

/-- Node state for the C6 witness: local trace provider 3 bound for
`dev`, local cache empty. -/
def c6St : RegState :=
  ⟨{ Tables.empty with traceStoresByEnv := [("dev", 3)] }, []⟩

/-- Parent for the C6 witness: it already holds a completed cached trace
store for `dev` (a different instance, from provider 8). -/
def c6Par : Registry :=
  .root ⟨{ Tables.empty with
              traceStoresByEnv := [("dev", 8)],
              traceStoresByEnvCache := [("dev", ⟨8⟩)] }, []⟩

/-- Node state for the C9 witness: both caches already populated for
`dev` from earlier lookups. -/
def c9St : RegState :=
  ⟨{ Tables.empty with
        traceStoresByEnv := [("dev", 3)],
        flowStateStoresByEnv := [("dev", 4)],
        traceStoresByEnvCache := [("dev", ⟨3⟩)],
        flowStateStoresByEnvCache := [("dev", ⟨4⟩)] },
   [Event.traceInvoke "dev" 3, Event.flowInvoke "dev" 4]⟩

/-- Number of constructions the trace-store provider for `env` has run on
this node: the invocation events for `env` in the ghost log. -/
def countTraceInvoke (l : List Event) (env : String) : Nat :=
  (l.filter fun ev => match ev with
    | .traceInvoke e _ => e == env
    | _ => false).length

/-- Number of constructions the flow-state-store provider for `env` has
run on this node. -/
def countFlowInvoke (l : List Event) (env : String) : Nat :=
  (l.filter fun ev => match ev with
    | .flowInvoke e _ => e == env
    | _ => false).length

/-- Number of times the initializer of the plugin registered under
`name` has run on this node. -/
def countPluginInvoke (l : List Event) (name : String) : Nat :=
  (l.filter fun ev => match ev with
    | .pluginInvoke n _ => n == name
    | _ => false).length

/-- An arbitrary interleaving of concurrent `lookupTraceStore` callers on
one node: each caller's cache-check-and-fill section runs without an
intervening suspension point (see the module comment), so an interleaving
is exactly a sequence of these atomic sections, in any order and for any
mix of environments. -/
def runTraceLookups (st : RegState) (envs : List String) : RegState :=
  envs.foldl (fun s e => (lookupOverlaidTraceStore s e).1) st

/-- An arbitrary interleaving of concurrent `lookupFlowStateStore`
callers on one node. -/
def runFlowLookups (st : RegState) (envs : List String) : RegState :=
  envs.foldl (fun s e => (lookupOverlaidFlowStateStore s e).1) st

/-- An arbitrary interleaving of concurrent `initializePlugin` callers on
one node (the memoizing wrapper's check-and-set section is likewise free
of suspension points). -/
def runPluginInits (E : EffEnv) (st : RegState) (names : List String) : RegState :=
  names.foldl (fun s n => (initializePluginState E s n).1) st

/-- Effect environments whose initializers never rewrite the plugin
table itself (they may register actions, stores, schemas): the
well-behavedness condition under which per-plugin memoization facts are
stated — an initializer that re-registered its own plugin would install a
fresh memoizing wrapper. -/
def EffPreservesPlugins (E : EffEnv) : Prop :=
  ∀ id t, ((E id t).1).pluginsByName = t.pluginsByName

/-- The quantity conserved by every atomic trace-lookup section: the
number of constructions already run for `env`, plus one pending charge
while the cache slot for `env` is still empty. -/
def traceCharge (st : RegState) (env : String) : Nat :=
  countTraceInvoke st.log env +
    (if (lookupTable st.tables.traceStoresByEnvCache env).isNone then 1 else 0)

def flowCharge (st : RegState) (env : String) : Nat :=
  countFlowInvoke st.log env +
    (if (lookupTable st.tables.flowStateStoresByEnvCache env).isNone then 1 else 0)

def pluginCharge (st : RegState) (name : String) : Nat :=
  countPluginInvoke st.log name +
    (match lookupTable st.tables.pluginsByName name with
     | some b => if b.cached.isNone then 1 else 0
     | none => 0)

/-- Node state for the C3 witness: trace provider 5 and flow provider 6
bound for `dev`, caches empty, no invocations yet. -/
def c3St : RegState :=
  ⟨{ Tables.empty with
        traceStoresByEnv := [("dev", 5)],
        flowStateStoresByEnv := [("dev", 6)],
        pluginsByName := [("p", ⟨"p", 0, none⟩)] }, []⟩

/-- Effect environment for the C5 witness: every initializer registers
the action `/model/pg/a`. -/
def c5WitEff : EffEnv := fun _ t =>
  ({ t with actionsById := insertTable t.actionsById "/model/pg/a" ⟨"pg/a", 7⟩ }, 0)

/-- Node state for the C5 witness: the plugin `pg` registered, no actions
registered yet. -/
def c5WitSt : RegState :=
  ⟨{ Tables.empty with pluginsByName := [("pg", ⟨"pg", 0, none⟩)] }, []⟩

theorem lookupTable_cons {α : Type} (k0 : String) (v0 : α) (t : List (String × α)) (k : String) :
    lookupTable ((k0, v0) :: t) k = if k0 == k then some v0 else lookupTable t k := by
  simp only [lookupTable, List.find?]
  cases h : (k0 == k) <;> simp

theorem lookupTable_insertTable_self {α : Type} (t : List (String × α)) (k : String) (v : α) :
    lookupTable (insertTable t k v) k = some v := by
  induction t with
  | nil => simp [insertTable, lookupTable_cons, lookupTable]
  | cons e t ih =>
    cases e with
    | mk k0 v0 =>
      by_cases h0 : k0 = k
      · simp [insertTable, h0, lookupTable_cons]
      · have h0b : (k0 == k) = false := by simpa using h0
        simp [insertTable, h0b, lookupTable_cons, ih]

theorem lookupTable_insertTable_ne {α : Type} (t : List (String × α)) (k k' : String)
    (v : α) (h : k' ≠ k) :
    lookupTable (insertTable t k v) k' = lookupTable t k' := by
  have hkk : (k == k') = false := by simpa using Ne.symm h
  induction t with
  | nil => simp [insertTable, lookupTable_cons, lookupTable, hkk]
  | cons e t ih =>
    cases e with
    | mk k0 v0 =>
      by_cases h0 : k0 = k
      · subst h0
        simp [insertTable, lookupTable_cons, hkk]
      · have h0b : (k0 == k) = false := by simpa using h0
        simp [insertTable, h0b, lookupTable_cons, ih]

theorem lookupTable_append {α : Type} (t1 t2 : List (String × α)) (k : String) :
    lookupTable (t1 ++ t2) k =
      match lookupTable t1 k with
      | some v => some v
      | none => lookupTable t2 k := by
  induction t1 with
  | nil => simp [lookupTable]
  | cons e t ih =>
    by_cases h : e.1 = k
    · simp [lookupTable, List.find?, h]
    · simp only [lookupTable, List.cons_append, List.find?] at ih ⊢
      have hb : (e.1 == k) = false := by simpa using h
      rw [hb]
      exact ih

theorem mem_keys_of_lookupTable {α : Type} (t : List (String × α)) (k : String) (v : α)
    (h : lookupTable t k = some v) : k ∈ t.map Prod.fst := by
  induction t with
  | nil => simp [lookupTable] at h
  | cons e t ih =>
    by_cases h0 : e.1 = k
    · simp [h0]
    · simp only [lookupTable, List.find?] at h
      have hb : (e.1 == k) = false := by simpa using h0
      rw [hb] at h
      right
      exact ih h

theorem lookupAction_eq_chain (E : EffEnv) (key : String)
    (h : strTruthy (parsePluginName key) = false) :
    ∀ r : Registry, Registry.lookupAction E r key = (r, chainLookupAction r key) := by
  intro r
  induction r with
  | root st =>
    simp only [Registry.lookupAction, chainLookupAction, h, Bool.and_false,
      Bool.false_eq_true, if_false]
    cases hl : lookupTable st.tables.actionsById key <;> rfl
  | child st parent ih =>
    simp only [Registry.lookupAction, chainLookupAction, h, Bool.and_false,
      Bool.false_eq_true, if_false]
    cases hl : lookupTable st.tables.actionsById key with
    | some a => rfl
    | none => simp [ih]

theorem chainLookupAction_absent (key : String) :
    ∀ r : Registry, keyAbsentInChain r key = true → chainLookupAction r key = none := by
  intro r
  induction r with
  | root st =>
    intro h
    simp only [keyAbsentInChain] at h
    simp only [chainLookupAction]
    exact Option.isNone_iff_eq_none.mp h
  | child st parent ih =>
    intro h
    simp only [keyAbsentInChain, Bool.and_eq_true] at h
    simp only [chainLookupAction]
    rw [Option.isNone_iff_eq_none.mp h.1]
    exact ih h.2

/-- Claim C4: the plugin-name derivation used by `lookupAction` splits
the key on the slash; a plugin name is inferred exactly when the split
has exactly four segments, and the inferred name is the segment at index
2.  For a key whose split has fewer or more than four segments no plugin
is inferred, no plugin initialization is attempted (the registry is left
untouched), and the lookup is the plain local-then-parent chain lookup,
answering `none` when the key is absent from the whole chain. -/
theorem C4_parse_and_malformed_key (key : String) (E : EffEnv) :
    ((parsePluginName key).isSome ↔ (splitKey key).length = 4)
    ∧ ((splitKey key).length = 4 → parsePluginName key = (splitKey key)[2]?)
    ∧ ((splitKey key).length ≠ 4 →
        ∀ r : Registry,
          Registry.lookupAction E r key = (r, chainLookupAction r key)
          ∧ (keyAbsentInChain r key = true →
              (Registry.lookupAction E r key).2 = none)) := by
  refine ⟨⟨?_, ?_⟩, ?_, ?_⟩
  · intro hs
    by_contra hne
    simp [parsePluginName, hne] at hs
  · intro h4
    rw [parsePluginName]
    simp only [h4, if_true]
    rw [List.getElem?_eq_getElem (by omega)]
    simp
  · intro h4
    simp [parsePluginName, h4]
  · intro h4 r
    have hnone : parsePluginName key = none := by simp [parsePluginName, h4]
    have hfalse : strTruthy (parsePluginName key) = false := by
      rw [hnone]; rfl
    have hc := lookupAction_eq_chain E key hfalse r
    refine ⟨hc, fun habs => ?_⟩
    rw [hc]
    simpa using chainLookupAction_absent key r habs

/-- Witness for C4 at the three-segment key `/flow/x` on a one-node
registry with an empty action table. -/
theorem C4_parse_and_malformed_key_witness :
    Registry.lookupAction (fun _ t => (t, 0)) (.root RegState.empty) "/flow/x" =
      (.root RegState.empty, chainLookupAction (.root RegState.empty) "/flow/x") :=
  ((C4_parse_and_malformed_key "/flow/x" (fun _ t => (t, 0))).2.2
    (by decide) (.root RegState.empty)).1

theorem applyRegOp_parentOf (r : Registry) (op : RegOp) :
    (applyRegOp r op).parentOf = r.parentOf := by
  cases r <;> rfl

theorem foldl_applyRegOp_parentOf (ops : List RegOp) :
    ∀ r : Registry, (ops.foldl applyRegOp r).parentOf = r.parentOf := by
  induction ops with
  | nil => intro r; rfl
  | cons op ops ih =>
    intro r
    rw [List.foldl_cons, ih, applyRegOp_parentOf]

/-- Claim C7: `runInTempRegistry` runs its function against a fresh child
node whose parent is the registry current at call time, and the
registrations the function performs (dispatched through the scope manager
to that child) modify only the child's own state: after any sequence of
registrations the temporary node's parent is still the very value that
was current at call time, so every table of the original node is exactly
as it was before the call. -/
theorem C7_runInTempRegistry_frame (current : Registry) (ops : List RegOp) :
    Registry.withCurrent current = Registry.child RegState.empty current
    ∧ (runInTempRegistry current ops).parentOf = some current := by
  refine ⟨rfl, ?_⟩
  rw [runInTempRegistry, foldl_applyRegOp_parentOf]
  rfl

/-- Claim C8: registering an action whose derived key `/<type>/<name>`
already exists in the node's local table proceeds without error (the
embedded operation is total, mirroring a source body that contains no
throw), logs the info line followed by a warning-level notice, and
overwrites the entry so that only the newly registered action is
subsequently retrievable under that key. -/
theorem C8_registerAction_overwrite (st : RegState) (ty : ActionType) (a1 a2 : Action)
    (h : lookupTable st.tables.actionsById (actionKey ty a2) = some a1) :
    lookupTable (registerActionState st ty a2).tables.actionsById (actionKey ty a2) = some a2
    ∧ (registerActionState st ty a2).log =
        st.log ++ [Event.info ("Registering " ++ ty.str ++ ": " ++ a2.name),
          Event.warn ("WARNING: " ++ actionKey ty a2 ++
            " already has an entry in the registry. Overwriting.")] := by
  rw [actionKey] at h
  constructor
  · simp [registerActionState, actionKey, lookupTable_insertTable_self]
  · simp [registerActionState, actionKey, h]

/-- Witness for C8: overwriting the flow action `x` on a node that
already holds an entry under `/flow/x`. -/
theorem C8_registerAction_overwrite_witness :
    lookupTable (registerActionState
        ⟨{ Tables.empty with actionsById := [("/flow/x", ⟨"x", 1⟩)] }, []⟩
        ActionType.flow ⟨"x", 2⟩).tables.actionsById (actionKey ActionType.flow ⟨"x", 2⟩) =
      some ⟨"x", 2⟩ :=
  (C8_registerAction_overwrite
    ⟨{ Tables.empty with actionsById := [("/flow/x", ⟨"x", 1⟩)] }, []⟩
    ActionType.flow ⟨"x", 1⟩ ⟨"x", 2⟩ (by decide)).1

/-- Claim C10: `registerTraceStore`, `registerFlowStateStore`,
`registerPluginProvider` and `registerSchema` overwrite silently: they
log nothing (no warning, unlike `registerAction`), raise no error, and
after two registrations under the same key a subsequent lookup that was
not previously cached answers from the second registration (for the two
store kinds, the construction runs the second provider; the plugin and
schema tables bind the second entry). -/
theorem C10_register_silent_overwrite (st : RegState) (env name : String) (p1 p2 : Nat)
    (pp1 pp2 : PluginProvider) (d1 d2 : SchemaEntry)
    (hT : lookupTable st.tables.traceStoresByEnvCache env = none)
    (hF : lookupTable st.tables.flowStateStoresByEnvCache env = none) :
    (registerTraceStoreState st env p1).log = st.log
    ∧ (registerFlowStateStoreState st env p1).log = st.log
    ∧ (registerPluginProviderState st name pp1).log = st.log
    ∧ (registerSchemaState st name d1).log = st.log
    ∧ (lookupOverlaidTraceStore
        (registerTraceStoreState (registerTraceStoreState st env p1) env p2) env).2 =
        some ⟨p2⟩
    ∧ (lookupOverlaidFlowStateStore
        (registerFlowStateStoreState (registerFlowStateStoreState st env p1) env p2) env).2 =
        some ⟨p2⟩
    ∧ Registry.lookupPlugin
        (.root (registerPluginProviderState
          (registerPluginProviderState st name pp1) name pp2)) name =
        some ⟨pp2.name, pp2.initId, none⟩
    ∧ Registry.lookupSchema
        (.root (registerSchemaState (registerSchemaState st name d1) name d2)) name =
        some d2 := by
  refine ⟨rfl, rfl, rfl, rfl, ?_, ?_, ?_, ?_⟩
  · rw [lookupOverlaidTraceStore]
    simp only [registerTraceStoreState, lookupTable_insertTable_self]
    simp [hT]
  · rw [lookupOverlaidFlowStateStore]
    simp only [registerFlowStateStoreState, lookupTable_insertTable_self]
    simp [hF]
  · simp [Registry.lookupPlugin, registerPluginProviderState, lookupTable_insertTable_self]
  · simp [Registry.lookupSchema, registerSchemaState, lookupTable_insertTable_self]

/-- Witness for C10 on the empty node with environment `dev`. -/
theorem C10_register_silent_overwrite_witness :
    (lookupOverlaidTraceStore
      (registerTraceStoreState (registerTraceStoreState RegState.empty "dev" 1) "dev" 2)
      "dev").2 = some ⟨2⟩ :=
  (C10_register_silent_overwrite RegState.empty "dev" "n" 1 2 ⟨"n", 1⟩ ⟨"n", 2⟩
    ⟨none, none⟩ ⟨some 1, none⟩ rfl rfl).2.2.2.2.1

/-- Counterexample to claim C1 as stated: for the key `/model//x` the
split has exactly four segments, so a plugin name — the empty third
segment — is inferred; the claim then requires awaiting that plugin's
local initialization and re-checking the local table, which would find
the action the initializer registers.  `Registry.lookupAction` instead
skips initialization because the inferred name fails the truthiness
check, and returns `none`. -/
theorem C1_lookupAction_counterexample :
    parsePluginName "/model//x" = some ""
    ∧ (lookupActionClaimed c1CexEff (.root c1CexSt) "/model//x").2 = some ⟨"x", 9⟩
    ∧ (Registry.lookupAction c1CexEff (.root c1CexSt) "/model//x").2 = none := by
  refine ⟨by decide, by decide, by decide⟩

/-- Claim C1 (amended): `lookupAction` returns the locally registered
action when the key is bound locally, without touching the node.  On a
local miss, when the inferred plugin name is truthy (inferred and
non-empty — the code tests the parsed name for JavaScript truthiness),
the plugin's local initialization is awaited and the local table
re-checked; when it is falsy the node is left as is.  If the key is
still absent locally the result is the parent's `lookupAction` result,
and with no parent it is `none` rather than an error. -/
theorem C1_lookupAction_amended (E : EffEnv) (st : RegState) (parent : Option Registry)
    (key : String) :
    (∀ a, lookupTable st.tables.actionsById key = some a →
        Registry.lookupAction E (Registry.node st parent) key =
          (Registry.node st parent, some a))
    ∧ (lookupTable st.tables.actionsById key = none →
        ∀ st1, st1 = (if strTruthy (parsePluginName key) then
                  (initializePluginState E st ((parsePluginName key).getD "")).1
                else st) →
          (∀ a, lookupTable st1.tables.actionsById key = some a →
              Registry.lookupAction E (Registry.node st parent) key =
                (Registry.node st1 parent, some a))
          ∧ (lookupTable st1.tables.actionsById key = none →
              (∀ p, parent = some p →
                  (Registry.lookupAction E (Registry.node st parent) key).2 =
                    (p.lookupAction E key).2)
              ∧ (parent = none →
                  Registry.lookupAction E (Registry.node st parent) key =
                    (Registry.node st1 none, none)))) := by
  constructor
  · intro a ha
    cases parent <;> simp [Registry.node, Registry.lookupAction, ha]
  · intro hnone st1 hst1
    subst hst1
    constructor
    · intro a ha
      cases parent <;>
        simp [Registry.node, Registry.lookupAction, hnone, ha]
    · intro hmiss
      constructor
      · intro p hp
        subst hp
        simp [Registry.node, Registry.lookupAction, hnone, hmiss]
      · intro hp
        subst hp
        simp [Registry.node, Registry.lookupAction, hnone, hmiss]

/-- Witness for C1 (amended): the plugin-triggered resolution scenario —
the key `/model/myplugin/gpt` is not registered, plugin `myplugin`
registers it during initialization, and the lookup finds it. -/
theorem C1_lookupAction_amended_witness :
    Registry.lookupAction c1WitEff (Registry.node c1WitSt none) "/model/myplugin/gpt" =
      (Registry.node (initializePluginState c1WitEff c1WitSt "myplugin").1 none,
        some ⟨"myplugin/gpt", 7⟩) := by
  refine ((C1_lookupAction_amended c1WitEff c1WitSt none
    "/model/myplugin/gpt").2 (by decide) _ ?_).1 ⟨"myplugin/gpt", 7⟩ (by decide)
  decide

/-- Claim C2, evaluated at the failing input: the `Registry.lookupPlugin`
method is the synchronous plugin-table chain lookup the claim describes,
but the module-level `lookupPlugin` convenience function delegates to
`lookupFlowStateStore`, so on a registry whose only registration is the
plugin `p` it answers `none` instead of the plugin binding. -/
theorem C2_lookupPlugin_module_bug :
    Registry.lookupPlugin (.root c2St) "p" = some ⟨"p", 5, none⟩
    ∧ (lookupPluginModule (.root c2St) "p").2 = none :=
  ⟨rfl, rfl⟩

theorem overlaidTrace_of_binding (st : RegState) (env : String) (pid : Nat)
    (hb : lookupTable st.tables.traceStoresByEnv env = some pid) :
    (lookupOverlaidTraceStore st env).2 =
      some (match lookupTable st.tables.traceStoresByEnvCache env with
            | some c => c
            | none => ⟨pid⟩) := by
  simp only [lookupOverlaidTraceStore, hb]
  cases hc : lookupTable st.tables.traceStoresByEnvCache env <;> simp

theorem overlaidTrace_no_binding (st : RegState) (env : String)
    (hb : lookupTable st.tables.traceStoresByEnv env = none) :
    lookupOverlaidTraceStore st env = (st, none) := by
  simp [lookupOverlaidTraceStore, hb]

theorem overlaidFlow_of_binding (st : RegState) (env : String) (pid : Nat)
    (hb : lookupTable st.tables.flowStateStoresByEnv env = some pid) :
    (lookupOverlaidFlowStateStore st env).2 =
      some (match lookupTable st.tables.flowStateStoresByEnvCache env with
            | some c => c
            | none => ⟨pid⟩) := by
  simp only [lookupOverlaidFlowStateStore, hb]
  cases hc : lookupTable st.tables.flowStateStoresByEnvCache env <;> simp

theorem overlaidFlow_no_binding (st : RegState) (env : String)
    (hb : lookupTable st.tables.flowStateStoresByEnv env = none) :
    lookupOverlaidFlowStateStore st env = (st, none) := by
  simp [lookupOverlaidFlowStateStore, hb]

/-- Claim C6: on a node with a parent, a locally bound trace-store
(resp. flow-state-store) provider always wins: the lookup returns the
local memoized construction — the cached instance when the cache slot is
set, else a fresh construction from the local provider — and the parent
component of the node is left exactly as it was, whatever cached
instances the parent holds.  Delegation to the parent happens exactly
when no local provider is bound for the environment, in which case the
value is precisely the parent's own lookup result. -/
theorem C6_local_binding_wins (st : RegState) (p : Registry) (env : String) :
    (∀ pid, lookupTable st.tables.traceStoresByEnv env = some pid →
        Registry.lookupTraceStore (.child st p) env =
          (.child (lookupOverlaidTraceStore st env).1 p,
            some (match lookupTable st.tables.traceStoresByEnvCache env with
                  | some c => c
                  | none => ⟨pid⟩)))
    ∧ (lookupTable st.tables.traceStoresByEnv env = none →
        (Registry.lookupTraceStore (.child st p) env).2 = (p.lookupTraceStore env).2)
    ∧ (∀ pid, lookupTable st.tables.flowStateStoresByEnv env = some pid →
        Registry.lookupFlowStateStore (.child st p) env =
          (.child (lookupOverlaidFlowStateStore st env).1 p,
            some (match lookupTable st.tables.flowStateStoresByEnvCache env with
                  | some c => c
                  | none => ⟨pid⟩)))
    ∧ (lookupTable st.tables.flowStateStoresByEnv env = none →
        (Registry.lookupFlowStateStore (.child st p) env).2 =
          (p.lookupFlowStateStore env).2) := by
  refine ⟨?_, ?_, ?_, ?_⟩
  · intro pid hb
    have h2 := overlaidTrace_of_binding st env pid hb
    simp only [Registry.lookupTraceStore]
    rw [h2]
  · intro hb
    simp only [Registry.lookupTraceStore]
    rw [overlaidTrace_no_binding st env hb]
  · intro pid hb
    have h2 := overlaidFlow_of_binding st env pid hb
    simp only [Registry.lookupFlowStateStore]
    rw [h2]
  · intro hb
    simp only [Registry.lookupFlowStateStore]
    rw [overlaidFlow_no_binding st env hb]

/-- Witness for C6: the local binding wins over the parent's completed
cached instance — the child constructs from its own provider 3. -/
theorem C6_local_binding_wins_witness :
    Registry.lookupTraceStore (.child c6St c6Par) "dev" =
      (.child (lookupOverlaidTraceStore c6St "dev").1 c6Par, some ⟨3⟩) :=
  (C6_local_binding_wins c6St c6Par "dev").1 3 (by decide)

/-- Claim C9: once a lookup has populated the node's cache slot for an
environment, registering a new provider for that environment on the same
node changes nothing a later lookup observes: the lookup still answers
the originally memoized instance and leaves the node's state — in
particular its ghost log — untouched, so the newly registered provider
is never invoked; likewise for flow state stores. -/
theorem C9_register_after_cache (st : RegState) (parent : Option Registry)
    (env : String) (v : TraceStore) (w : FlowStateStore) (p2 q2 : Nat)
    (hT : lookupTable st.tables.traceStoresByEnvCache env = some v)
    (hF : lookupTable st.tables.flowStateStoresByEnvCache env = some w) :
    Registry.lookupTraceStore
        (Registry.node (registerTraceStoreState st env p2) parent) env =
      (Registry.node (registerTraceStoreState st env p2) parent, some v)
    ∧ Registry.lookupFlowStateStore
        (Registry.node (registerFlowStateStoreState st env q2) parent) env =
      (Registry.node (registerFlowStateStoreState st env q2) parent, some w) := by
  have hoT : lookupOverlaidTraceStore (registerTraceStoreState st env p2) env =
      (registerTraceStoreState st env p2, some v) := by
    simp [lookupOverlaidTraceStore, registerTraceStoreState,
      lookupTable_insertTable_self, hT]
  have hoF : lookupOverlaidFlowStateStore (registerFlowStateStoreState st env q2) env =
      (registerFlowStateStoreState st env q2, some w) := by
    simp [lookupOverlaidFlowStateStore, registerFlowStateStoreState,
      lookupTable_insertTable_self, hF]
  cases parent <;>
    simp [Registry.node, Registry.lookupTraceStore, Registry.lookupFlowStateStore, hoT, hoF]

/-- Witness for C9: after re-registering providers 30 and 40 for `dev`,
the lookups still answer the originally memoized stores from providers 3
and 4 with no state change. -/
theorem C9_register_after_cache_witness :
    Registry.lookupTraceStore
        (Registry.node (registerTraceStoreState c9St "dev" 30) none) "dev" =
      (Registry.node (registerTraceStoreState c9St "dev" 30) none, some ⟨3⟩) :=
  (C9_register_after_cache c9St none "dev" ⟨3⟩ ⟨4⟩ 30 40 (by decide) (by decide)).1

theorem countTraceInvoke_append (l : List Event) (ev : Event) (env : String) :
    countTraceInvoke (l ++ [ev]) env =
      countTraceInvoke l env +
        (match ev with
         | .traceInvoke e _ => if e == env then 1 else 0
         | _ => 0) := by
  rw [countTraceInvoke, countTraceInvoke, List.filter_append, List.length_append]
  cases ev <;> simp [List.filter]
  case traceInvoke e pid =>
    by_cases he : e = env
    · simp [he]
    · have hb : (e == env) = false := beq_eq_false_iff_ne.mpr he
      simp [hb, he]

theorem countFlowInvoke_append (l : List Event) (ev : Event) (env : String) :
    countFlowInvoke (l ++ [ev]) env =
      countFlowInvoke l env +
        (match ev with
         | .flowInvoke e _ => if e == env then 1 else 0
         | _ => 0) := by
  rw [countFlowInvoke, countFlowInvoke, List.filter_append, List.length_append]
  cases ev <;> simp [List.filter]
  case flowInvoke e pid =>
    by_cases he : e = env
    · simp [he]
    · have hb : (e == env) = false := beq_eq_false_iff_ne.mpr he
      simp [hb, he]

theorem countPluginInvoke_append (l : List Event) (ev : Event) (name : String) :
    countPluginInvoke (l ++ [ev]) name =
      countPluginInvoke l name +
        (match ev with
         | .pluginInvoke n _ => if n == name then 1 else 0
         | _ => 0) := by
  rw [countPluginInvoke, countPluginInvoke, List.filter_append, List.length_append]
  cases ev <;> simp [List.filter]
  case pluginInvoke n id =>
    by_cases he : n = name
    · simp [he]
    · have hb : (n == name) = false := beq_eq_false_iff_ne.mpr he
      simp [hb, he]

theorem traceCharge_step (st : RegState) (e env : String) :
    traceCharge (lookupOverlaidTraceStore st e).1 env = traceCharge st env := by
  cases hb : lookupTable st.tables.traceStoresByEnv e with
  | none => rw [overlaidTrace_no_binding st e hb]
  | some pid =>
    cases hc : lookupTable st.tables.traceStoresByEnvCache e with
    | some c => simp [lookupOverlaidTraceStore, hb, hc]
    | none =>
      simp only [lookupOverlaidTraceStore, hb, hc]
      by_cases he : e = env
      · subst he
        simp [traceCharge, countTraceInvoke_append, hc,
          lookupTable_insertTable_self]
      · have hne : env ≠ e := Ne.symm he
        simp [traceCharge, countTraceInvoke_append, he,
          lookupTable_insertTable_ne _ _ _ _ hne]

theorem flowCharge_step (st : RegState) (e env : String) :
    flowCharge (lookupOverlaidFlowStateStore st e).1 env = flowCharge st env := by
  cases hb : lookupTable st.tables.flowStateStoresByEnv e with
  | none => rw [overlaidFlow_no_binding st e hb]
  | some pid =>
    cases hc : lookupTable st.tables.flowStateStoresByEnvCache e with
    | some c => simp [lookupOverlaidFlowStateStore, hb, hc]
    | none =>
      simp only [lookupOverlaidFlowStateStore, hb, hc]
      by_cases he : e = env
      · subst he
        simp [flowCharge, countFlowInvoke_append, hc,
          lookupTable_insertTable_self]
      · have hne : env ≠ e := Ne.symm he
        simp [flowCharge, countFlowInvoke_append, he,
          lookupTable_insertTable_ne _ _ _ _ hne]

theorem pluginCharge_step (E : EffEnv) (hE : EffPreservesPlugins E)
    (st : RegState) (n name : String) :
    pluginCharge (initializePluginState E st n).1 name = pluginCharge st name := by
  cases hb : lookupTable st.tables.pluginsByName n with
  | none => simp [initializePluginState, hb]
  | some b =>
    cases hcac : b.cached with
    | some v => simp [initializePluginState, hb, hcac]
    | none =>
      simp only [initializePluginState, hb, hcac]
      by_cases hn : n = name
      · subst hn
        simp [pluginCharge, countPluginInvoke_append, hb, hcac,
          lookupTable_insertTable_self]
      · have hne : name ≠ n := Ne.symm hn
        simp only [pluginCharge, countPluginInvoke_append]
        rw [lookupTable_insertTable_ne _ _ _ _ hne, hE b.initId st.tables]
        simp [hn]

theorem traceCharge_run (env : String) :
    ∀ (envs : List String) (st : RegState),
      traceCharge (runTraceLookups st envs) env = traceCharge st env := by
  intro envs
  induction envs with
  | nil => intro st; rfl
  | cons e envs ih =>
    intro st
    rw [runTraceLookups, List.foldl_cons]
    have := ih (lookupOverlaidTraceStore st e).1
    rw [runTraceLookups] at this
    rw [this, traceCharge_step]

theorem flowCharge_run (env : String) :
    ∀ (envs : List String) (st : RegState),
      flowCharge (runFlowLookups st envs) env = flowCharge st env := by
  intro envs
  induction envs with
  | nil => intro st; rfl
  | cons e envs ih =>
    intro st
    rw [runFlowLookups, List.foldl_cons]
    have := ih (lookupOverlaidFlowStateStore st e).1
    rw [runFlowLookups] at this
    rw [this, flowCharge_step]

theorem pluginCharge_run (E : EffEnv) (hE : EffPreservesPlugins E) (name : String) :
    ∀ (names : List String) (st : RegState),
      pluginCharge (runPluginInits E st names) name = pluginCharge st name := by
  intro names
  induction names with
  | nil => intro st; rfl
  | cons n names ih =>
    intro st
    rw [runPluginInits, List.foldl_cons]
    have := ih (initializePluginState E st n).1
    rw [runPluginInits] at this
    rw [this, pluginCharge_step E hE]

/-- Claim C3: a trace-store provider, a flow-state-store provider, and a
plugin initializer registered on a node each run at most once per
(node, key), no matter how many lookups — interleaved concurrently in any
order, for any mix of keys — request them.  Because each memoizing
section stores the in-flight result in its cache slot before any
suspension point, an interleaving is a sequence of these atomic sections
(`runTraceLookups`, `runFlowLookups`, `runPluginInits`), and in the
concrete scenario of two concurrent `lookupTraceStore` callers hitting
the same uncached environment both observe the one constructed store and
exactly one construction is logged.  The plugin part assumes the
initializers do not rewrite the plugin table itself (see
`EffPreservesPlugins`). -/
theorem C3_at_most_one_construction (st : RegState) (E : EffEnv)
    (hE : EffPreservesPlugins E) (envs names : List String) (env name : String)
    (pid : Nat)
    (hbind : lookupTable st.tables.traceStoresByEnv env = some pid)
    (hcache : lookupTable st.tables.traceStoresByEnvCache env = none)
    (hcount : countTraceInvoke st.log env = 0) :
    countTraceInvoke (runTraceLookups st envs).log env ≤ 1
    ∧ countFlowInvoke (runFlowLookups st envs).log env ≤ countFlowInvoke st.log env + 1
    ∧ countPluginInvoke (runPluginInits E st names).log name ≤
        countPluginInvoke st.log name + 1
    ∧ (lookupOverlaidTraceStore st env).2 = some ⟨pid⟩
    ∧ (lookupOverlaidTraceStore (lookupOverlaidTraceStore st env).1 env).2 = some ⟨pid⟩
    ∧ countTraceInvoke
        (lookupOverlaidTraceStore (lookupOverlaidTraceStore st env).1 env).1.log env = 1 := by
  have h1 : countTraceInvoke (runTraceLookups st envs).log env ≤ 1 := by
    have h := traceCharge_run env envs st
    have hle : countTraceInvoke (runTraceLookups st envs).log env ≤
        traceCharge (runTraceLookups st envs) env := Nat.le_add_right _ _
    rw [h] at hle
    simpa [traceCharge, hcount, hcache] using hle
  have h2 : countFlowInvoke (runFlowLookups st envs).log env ≤
      countFlowInvoke st.log env + 1 := by
    have h := flowCharge_run env envs st
    have hle : countFlowInvoke (runFlowLookups st envs).log env ≤
        flowCharge (runFlowLookups st envs) env := Nat.le_add_right _ _
    rw [h] at hle
    refine hle.trans ?_
    rw [flowCharge]
    have hflag : (if (lookupTable st.tables.flowStateStoresByEnvCache env).isNone
        then 1 else 0) ≤ 1 := by
      split <;> omega
    omega
  have h3 : countPluginInvoke (runPluginInits E st names).log name ≤
      countPluginInvoke st.log name + 1 := by
    have h := pluginCharge_run E hE name names st
    have hle : countPluginInvoke (runPluginInits E st names).log name ≤
        pluginCharge (runPluginInits E st names) name := Nat.le_add_right _ _
    rw [h] at hle
    refine hle.trans ?_
    rw [pluginCharge]
    have hflag : (match lookupTable st.tables.pluginsByName name with
        | some b => if b.cached.isNone then 1 else 0
        | none => 0) ≤ 1 := by
      cases lookupTable st.tables.pluginsByName name with
      | none => simp
      | some b => cases b.cached <;> simp <;> split <;> omega
    omega
  have hst1 : lookupOverlaidTraceStore st env =
      ({ tables := { st.tables with
            traceStoresByEnvCache :=
              insertTable st.tables.traceStoresByEnvCache env ⟨pid⟩ },
         log := st.log ++ [Event.traceInvoke env pid] }, some ⟨pid⟩) := by
    simp [lookupOverlaidTraceStore, hbind, hcache]
  refine ⟨h1, h2, h3, ?_, ?_, ?_⟩
  · rw [hst1]
  · rw [hst1]
    simp [lookupOverlaidTraceStore, hbind, lookupTable_insertTable_self]
  · rw [hst1]
    simp [lookupOverlaidTraceStore, hbind, lookupTable_insertTable_self,
      countTraceInvoke_append, hcount]

/-- Witness for C3: two interleaved lookups of the uncached environment
`dev` construct at most once. -/
theorem C3_at_most_one_construction_witness :
    countTraceInvoke (runTraceLookups c3St ["dev", "dev"]).log "dev" ≤ 1 :=
  (C3_at_most_one_construction c3St (fun _ t => (t, 0)) (fun _ _ => rfl)
    ["dev", "dev"] ["p", "p"] "dev" "p" 5 (by decide) rfl rfl).1

theorem initializePlugin_cached_self (E : EffEnv) (st : RegState) (n : String)
    (b : PluginBinding) (hb : lookupTable st.tables.pluginsByName n = some b) :
    ∃ b2, lookupTable (initializePluginState E st n).1.tables.pluginsByName n = some b2
      ∧ b2.cached.isSome := by
  cases hc : b.cached with
  | some v => exact ⟨b, by simp [initializePluginState, hb, hc], by simp [hc]⟩
  | none =>
    refine ⟨⟨b.name, b.initId, some (E b.initId st.tables).2⟩, ?_, by simp⟩
    simp [initializePluginState, hb, hc, lookupTable_insertTable_self]

theorem initializePlugin_preserves_other (E : EffEnv) (hE : EffPreservesPlugins E)
    (st : RegState) (n m : String) (hm : m ≠ n) :
    lookupTable (initializePluginState E st n).1.tables.pluginsByName m =
      lookupTable st.tables.pluginsByName m := by
  cases hb : lookupTable st.tables.pluginsByName n with
  | none => simp [initializePluginState, hb]
  | some b =>
    cases hc : b.cached with
    | some v => simp [initializePluginState, hb, hc]
    | none =>
      simp only [initializePluginState, hb, hc]
      rw [lookupTable_insertTable_ne _ _ _ _ hm, hE b.initId st.tables]

theorem runPluginInits_initializes (E : EffEnv) (hE : EffPreservesPlugins E) :
    ∀ (names : List String) (st : RegState) (n : String) (b : PluginBinding),
      lookupTable st.tables.pluginsByName n = some b →
      (n ∈ names ∨ b.cached.isSome) →
      ∃ b2, lookupTable (runPluginInits E st names).tables.pluginsByName n = some b2
        ∧ b2.cached.isSome := by
  intro names
  induction names with
  | nil =>
    intro st n b hb hmem
    rcases hmem with h | h
    · simp at h
    · exact ⟨b, hb, h⟩
  | cons m names ih =>
    intro st n b hb hmem
    have hstep : runPluginInits E st (m :: names) =
        runPluginInits E (initializePluginState E st m).1 names := rfl
    rw [hstep]
    by_cases hnm : n = m
    · subst hnm
      obtain ⟨b1, hb1, hc1⟩ := initializePlugin_cached_self E st n b hb
      exact ih _ n b1 hb1 (Or.inr hc1)
    · have hb2 : lookupTable (initializePluginState E st m).1.tables.pluginsByName n =
          some b := by
        rw [initializePlugin_preserves_other E hE st m n hnm]
        exact hb
      rcases hmem with h | h
      · rcases List.mem_cons.mp h with h1 | h1
        · exact absurd h1 hnm
        · exact ih _ n b hb2 (Or.inl h1)
      · exact ih _ n b hb2 (Or.inr h)

theorem lookupTable_mergeRecord (base ext : List (String × Action)) (k : String) :
    lookupTable (mergeRecord base ext) k =
      match lookupTable ext k with
      | some a => some a
      | none => lookupTable base k := by
  rw [mergeRecord, lookupTable_append]
  cases lookupTable ext k <;> simp

/-- Claim C5: `listActions` first initializes, through the memoized
wrappers, every plugin registered locally on the node (every local
binding ends with its `cached` slot set), and the returned listing binds
every key to the post-initialization local entry when one exists, else to
the parent's full `listActions` entry.  Stated under the
well-behavedness condition that initializers do not rewrite the plugin
table (`EffPreservesPlugins`), without which "every plugin" is not even
stable. -/
theorem C5_listActions_inits_then_merges (E : EffEnv) (hE : EffPreservesPlugins E)
    (st : RegState) (parent : Option Registry) :
    (∀ n b, lookupTable st.tables.pluginsByName n = some b →
        ∃ b2, lookupTable
            ((Registry.listActions E (Registry.node st parent)).1).st.tables.pluginsByName n =
          some b2 ∧ b2.cached.isSome)
    ∧ (∀ k, lookupTable ((Registry.listActions E (Registry.node st parent)).2) k =
        match lookupTable (initAllPlugins E st).tables.actionsById k with
        | some a => some a
        | none =>
          match parent with
          | some p => lookupTable ((p.listActions E).2) k
          | none => none) := by
  constructor
  · intro n b hb
    have hmem : n ∈ st.tables.pluginsByName.map Prod.fst :=
      mem_keys_of_lookupTable _ _ _ hb
    have hres := runPluginInits_initializes E hE
      (st.tables.pluginsByName.map Prod.fst) st n b hb (Or.inl hmem)
    cases parent <;>
      simpa [Registry.node, Registry.listActions, Registry.st, initAllPlugins,
        runPluginInits] using hres
  · intro k
    cases parent with
    | none =>
      simp only [Registry.node, Registry.listActions, lookupTable_mergeRecord]
      cases lookupTable (initAllPlugins E st).tables.actionsById k <;> simp [lookupTable]
    | some p =>
      simp only [Registry.node, Registry.listActions, lookupTable_mergeRecord]

/-- Witness for C5: the listing contains the plugin-contributed action
even though it was never looked up. -/
theorem C5_listActions_inits_then_merges_witness :
    lookupTable ((Registry.listActions c5WitEff (Registry.node c5WitSt none)).2)
        "/model/pg/a" = some ⟨"pg/a", 7⟩ :=
  ((C5_listActions_inits_then_merges c5WitEff (fun _ _ => rfl) c5WitSt none).2
    "/model/pg/a").trans (by decide)


end Genkit
